import Mathlib

/-!
Verification of the Stratum V2 client core
(`open/bosminer/src/client/stratum_v2.rs`).

The Rust source is shallowly embedded: machine integers (`u32`) become `Nat`
with an explicit `% 2^32` wherever the code's arithmetic can wrap, the
`HashMap<u32, NewMiningJob>` pending-job table becomes a functional map
`Nat → Option NewMiningJob`, the shared `Arc<AtomicU32>` current-height cell
becomes an explicit `Nat` argument (read side) or state field (write side),
and panics become `Except` errors.
-/

namespace StratumV2

/-- Modulus of the `u32` machine integers used by the source. -/
def U32_MOD : Nat := 2 ^ 32

/-- Message shape from the stratum crate (its source is not under `src/`);
fields are exactly the ones this file reads (`job_id`, `channel_id`,
`block_height`, `version`, `merkle_root`), matching the spec's
message-shape list. -/
structure NewMiningJob where
  channel_id : Nat
  job_id : Nat
  block_height : Nat
  merkle_root : Nat
  version : Nat
deriving DecidableEq

/-- Message shape from the stratum crate (its source is not under `src/`);
fields are exactly the ones this file reads, matching the spec's
"new-block announcement (block height, previous hash, minimum time,
max-time-offset, difficulty bits)". -/
structure SetNewPrevHash where
  block_height : Nat
  prev_hash : Nat
  min_ntime : Nat
  max_ntime_offset : Nat
  nbits : Nat
deriving DecidableEq

/-- Message shape from the stratum crate (its source is not under `src/`):
a target-change announcement carrying the new maximum target. -/
structure SetTarget where
  max_target : Nat
deriving DecidableEq

/-- Embeds the Rust `StratumJob` struct. The `current_block_height`
handle (an `Arc<AtomicU32>` in the source) is externalized: the cell's
value is passed explicitly to `is_valid`. -/
structure StratumJob where
  id : Nat
  channel_id : Nat
  block_height : Nat
  version : Nat
  prev_hash : Nat
  merkle_root : Nat
  time : Nat
  max_time : Nat
  bits : Nat
deriving DecidableEq

/-- Embeds `StratumJob::new`. The Rust constructor asserts
`job_msg.block_height == prevhash_msg.block_height`; the assertion
failure (a panic) is modelled as `none`. `max_time` is the wrapping
`u32` sum `min_ntime + max_ntime_offset`. -/
def StratumJob.new (job_msg : NewMiningJob) (prevhash_msg : SetNewPrevHash) :
    Option StratumJob :=
  if job_msg.block_height = prevhash_msg.block_height then
    some
      ⟨job_msg.job_id, job_msg.channel_id, job_msg.block_height, job_msg.version,
       prevhash_msg.prev_hash, job_msg.merkle_root, prevhash_msg.min_ntime,
       (prevhash_msg.min_ntime + prevhash_msg.max_ntime_offset) % U32_MOD,
       prevhash_msg.nbits⟩
  else none

/-- Embeds `StratumJob::is_valid`: a pure comparison of the job's own
height with the value currently held in the shared height cell
(`current_block_height.load(Ordering::Relaxed)`), passed here explicitly. -/
def StratumJob.is_valid (self : StratumJob) (current_block_height : Nat) : Bool :=
  decide (self.block_height ≥ current_block_height)

/-- State of `StratumEventHandler`: the pending-job table `new_jobs`
(a `HashMap<u32, NewMiningJob>` embedded as a functional map) and the
write side of the shared `current_block_height` cell. -/
structure HandlerState where
  new_jobs : Nat → Option NewMiningJob
  current_block_height : Nat

/-- Embeds `StratumEventHandler::new`: empty table, height cell at 0. -/
def HandlerState.initial : HandlerState := ⟨fun _ => none, 0⟩

/-- Effects the handler sends to the work-distribution collaborator:
`job_sender.send` and `job_sender.change_target`. -/
inductive Output where
  | publishedJob (job : StratumJob)
  | targetChange (max_target : Nat)
deriving DecidableEq

/-- The two panics of `visit_set_new_prev_hash`: no pending job matches
the announced height, or `StratumJob::new`'s height assertion fails. -/
inductive Fatal where
  | jobNotFound
  | heightMismatch
deriving DecidableEq

/-- Embeds `visit_new_mining_job`: insert the announcement into the
pending-job table keyed by its block height, overwriting any previous
entry at that height; the height cell is untouched. -/
def visit_new_mining_job (s : HandlerState) (job_mgs : NewMiningJob) : HandlerState :=
  ⟨fun h => if h = job_mgs.block_height then some job_mgs else s.new_jobs h,
   s.current_block_height⟩

/-- Embeds `visit_set_new_prev_hash`. In source order: store the new
height into the shared cell, `remove_entry` the pending job at exactly
that height (panic `jobNotFound` if absent), build a `StratumJob` from
the pair (panic `heightMismatch` if the heights disagree), send it, then
`retain` only table entries with `block_height >= current_block_height`.
The resulting table is written directly: the retain filter applied to
the table after the removal. -/
def visit_set_new_prev_hash (s : HandlerState) (prevhash_msg : SetNewPrevHash) :
    Except Fatal (HandlerState × List Output) :=
  match s.new_jobs prevhash_msg.block_height with
  | some job_msg =>
    match StratumJob.new job_msg prevhash_msg with
    | some job =>
      Except.ok
        (⟨fun h => if prevhash_msg.block_height ≤ h then
             (if h = prevhash_msg.block_height then none else s.new_jobs h)
           else none,
          prevhash_msg.block_height⟩,
         [Output.publishedJob job])
    | none => Except.error Fatal.heightMismatch
  | none => Except.error Fatal.jobNotFound

/-- Embeds `visit_set_target`: forward the maximum target to the
work-distribution collaborator unmodified; no state change. -/
def visit_set_target (s : HandlerState) (target_msg : SetTarget) :
    HandlerState × List Output :=
  (s, [Output.targetChange target_msg.max_target])

/-- The three message kinds `StratumEventHandler` reacts to, dispatched
by type in `event_handler_task` via `msg.accept`. -/
inductive Event where
  | newMiningJob (msg : NewMiningJob)
  | setNewPrevHash (msg : SetNewPrevHash)
  | setTarget (msg : SetTarget)

/-- One dispatch step of the inbound event processor. -/
def step (s : HandlerState) : Event → Except Fatal (HandlerState × List Output)
  | Event.newMiningJob m => Except.ok (visit_new_mining_job s m, [])
  | Event.setNewPrevHash m => visit_set_new_prev_hash s m
  | Event.setTarget m => Except.ok (visit_set_target s m)

/-- Embeds the loop of `event_handler_task`: process decoded messages in
arrival order, accumulating the outputs sent to the work-distribution
collaborator; a panic aborts the run. -/
def runEvents (s : HandlerState) : List Event → Except Fatal (HandlerState × List Output)
  | [] => Except.ok (s, [])
  | e :: es =>
    match step s e with
    | Except.error f => Except.error f
    | Except.ok (s1, out1) =>
      match runEvents s1 es with
      | Except.error f => Except.error f
      | Except.ok (s2, out2) => Except.ok (s2, out1 ++ out2)

/-- Modelled from the spec: `hal::UniqueMiningWorkSolution` lives outside
`src/`; per the spec a completed solution exposes its originating Job,
the nonce found, the time offset, and the version bits used. -/
structure Solution where
  job : StratumJob
  nonce : Nat
  time_offset : Nat
  version : Nat
deriving DecidableEq

/-- Message shape from the stratum crate (its source is not under `src/`):
the `SubmitShares` submission, with exactly the fields the source fills. -/
structure SubmitShares where
  channel_id : Nat
  seq_num : Nat
  job_id : Nat
  nonce : Nat
  ntime_offset : Nat
  version : Nat
deriving DecidableEq

/-- State of `StratumSolutionHandler`: the sequence counter and, in place
of the connection's send half, the list of transmitted submissions. -/
structure SolutionHandlerState where
  seq_num : Nat
  sent : List SubmitShares
deriving DecidableEq

/-- Embeds `StratumSolutionHandler::new`: counter starts at 0. -/
def SolutionHandlerState.initial : SolutionHandlerState := ⟨0, []⟩

/-- Embeds `process_solution`: read the originating job's channel id and
job id, assign the current counter value as the sequence number
(post-increment with `wrapping_add(1)` on `u32`), build the
`SubmitShares` message and transmit it. -/
def process_solution (s : SolutionHandlerState) (solution : Solution) :
    SolutionHandlerState :=
  ⟨(s.seq_num + 1) % U32_MOD,
   s.sent ++ [⟨solution.job.channel_id, s.seq_num, solution.job.id,
               solution.nonce, solution.time_offset, solution.version⟩]⟩

/-- Embeds the loop of `StratumSolutionHandler::run`: process completed
solutions one by one in arrival order. -/
def runSolutions (s : SolutionHandlerState) : List Solution → SolutionHandlerState
  | [] => s
  | sol :: rest => runSolutions (process_solution s sol) rest

/-- The responses a single awaited handshake message can decode to, as
dispatched by `Message::accept` on `StratumConnectionHandler`: the four
message kinds the handler overrides, plus any other message (for which
the `V2Handler` default leaves the handler untouched). -/
inductive ResponseMsg where
  | setupMiningConnectionSuccess
  | setupMiningConnectionError
  | openChannelSuccess
  | openChannelError
  | other
deriving DecidableEq

/-- Embeds `StratumConnectionHandler::new`: the pessimistic default,
`Err(())`. -/
def StratumConnectionHandler.new : Except Unit Unit := Except.error ()

/-- Embeds the `V2Handler` impl of `StratumConnectionHandler`: each
overridden visit method overwrites the stored result; an unhandled
message leaves it unchanged. -/
def StratumConnectionHandler.accept (state : Except Unit Unit) :
    ResponseMsg → Except Unit Unit
  | ResponseMsg.setupMiningConnectionSuccess => Except.ok ()
  | ResponseMsg.setupMiningConnectionError => Except.error ()
  | ResponseMsg.openChannelSuccess => Except.ok ()
  | ResponseMsg.openChannelError => Except.error ()
  | ResponseMsg.other => state

/-- Embeds `StratumConnectionHandler::visit`: start from the pessimistic
default and let the response message dispatch into the handler. Both
`setup_mining_connection` and `open_channel` interpret their single
awaited response with this one function. -/
def StratumConnectionHandler.visit (response_msg : ResponseMsg) : Except Unit Unit :=
  StratumConnectionHandler.accept StratumConnectionHandler.new response_msg

/-- The two handshake steps of the sequencer. -/
inductive HandshakeStep where
  | connectionSetup
  | channelOpen
deriving DecidableEq

/-- Formalizes the spec's words "an explicit success message of the
matching kind": the success response kind that matches a given
handshake step. -/
def specMatchingSuccess : HandshakeStep → ResponseMsg
  | HandshakeStep.connectionSetup => ResponseMsg.setupMiningConnectionSuccess
  | HandshakeStep.channelOpen => ResponseMsg.openChannelSuccess

/-- Concrete job announcement used by witnesses (height 100). -/
def jmW : NewMiningJob := ⟨2, 5, 100, 3, 2⟩

/-- Concrete replacement announcement for the same height 100. -/
def jmW2 : NewMiningJob := ⟨2, 6, 100, 4, 2⟩

/-- Concrete new-block announcement for height 100. -/
def pmW : SetNewPrevHash := ⟨100, 7, 1000, 60, 9⟩

/-- Concrete new-block announcement for height 200 (no matching job). -/
def pmW200 : SetNewPrevHash := ⟨200, 7, 1000, 60, 9⟩

/-- C1: `is_valid` returns true exactly when the job's own block height
is at least the value currently held in the shared current-height cell;
in particular once the cell holds any value strictly above the job's
height the check is false, and it stays false for every cell value that
does not drop back to the job's height or below. -/
theorem is_valid_iff_height_ge (J : StratumJob) (h : Nat) :
    J.is_valid h = true ↔ J.block_height ≥ h := by
  simp [StratumJob.is_valid]

/-- C9: constructing a `StratumJob` from a job announcement and a
new-block announcement succeeds exactly when the two agree on block
height; when they disagree the assertion fires (modelled as `none`), so
under equal heights the failure branch is unreachable. -/
theorem new_succeeds_iff_heights_agree (jm : NewMiningJob) (pm : SetNewPrevHash) :
    (StratumJob.new jm pm).isSome = true ↔ jm.block_height = pm.block_height := by
  unfold StratumJob.new
  split <;> simp_all

/-- C7: a new-job announcement whose height is already pending replaces
the previous entry at that height, leaves every other height unchanged,
and does not touch the shared current-height cell. -/
theorem replace_pending_entry (s : HandlerState) (m : NewMiningJob) (k : Nat)
    (hpresent : s.new_jobs m.block_height ≠ none) :
    (visit_new_mining_job s m).new_jobs k
      = (if k = m.block_height then some m else s.new_jobs k) ∧
    (visit_new_mining_job s m).current_block_height = s.current_block_height :=
  ⟨rfl, rfl⟩

/-- Witness for C7: with jmW (height 100) pending, re-announcing jmW2
for height 100 overwrites the entry and keeps the height cell. -/
theorem replace_pending_entry_witness :
    ((visit_new_mining_job (visit_new_mining_job HandlerState.initial jmW) jmW2).new_jobs 100
      = (if 100 = jmW2.block_height then some jmW2
         else (visit_new_mining_job HandlerState.initial jmW).new_jobs 100)) ∧
    (visit_new_mining_job (visit_new_mining_job HandlerState.initial jmW) jmW2).current_block_height
      = (visit_new_mining_job HandlerState.initial jmW).current_block_height :=
  replace_pending_entry (visit_new_mining_job HandlerState.initial jmW) jmW2 100 (by decide)

/-- C8: the transmitted submission carries exactly the originating job's
channel id and job id, the sequence number assigned for this solution,
and the solution's nonce, time offset and version bits, untransformed. -/
theorem submit_fields_exact (s : SolutionHandlerState) (sol : Solution) :
    (process_solution s sol).sent = s.sent ++
      [⟨sol.job.channel_id, s.seq_num, sol.job.id,
        sol.nonce, sol.time_offset, sol.version⟩] ∧
    (process_solution s sol).seq_num = (s.seq_num + 1) % U32_MOD :=
  ⟨rfl, rfl⟩

/-- C4: a new-block announcement with no matching pending-job entry is a
protocol-sequence violation: the handler step ends in the fatal
`jobNotFound` outcome and publishes no Job. -/
theorem missing_job_fatal (s : HandlerState) (pm : SetNewPrevHash)
    (hnone : s.new_jobs pm.block_height = none) :
    step s (Event.setNewPrevHash pm) = Except.error Fatal.jobNotFound := by
  simp [step, visit_set_new_prev_hash, hnone]

/-- Witness for C4: a new-block announcement for height 200 against the
fresh handler state (empty table) is fatal. -/
theorem missing_job_fatal_witness :
    step HandlerState.initial (Event.setNewPrevHash pmW200)
      = Except.error Fatal.jobNotFound :=
  missing_job_fatal HandlerState.initial pmW200 rfl

/-- C5 counterexample: during the connection-setup step the awaited
response is interpreted by the same handler as the channel-open step, so
an explicit channel-open success — not the success kind matching the
step — still flips the result to accepted. -/
theorem handshake_matching_kind_counterexample :
    StratumConnectionHandler.visit ResponseMsg.openChannelSuccess = Except.ok () ∧
    ResponseMsg.openChannelSuccess ≠ specMatchingSuccess HandshakeStep.connectionSetup := by
  refine ⟨rfl, ?_⟩
  intro h
  cases h

/-- C5 amended: the result of interpreting the single awaited response
starts as rejected and is flipped to accepted by an explicit success
message of either handshake kind (regardless of which step awaits it);
an explicit error message of either kind, and any unrecognized response,
leave it rejected. -/
theorem handshake_pessimistic_default (msg : ResponseMsg) :
    StratumConnectionHandler.new = Except.error () ∧
    (StratumConnectionHandler.visit msg = Except.ok () ↔
      (msg = ResponseMsg.setupMiningConnectionSuccess ∨
       msg = ResponseMsg.openChannelSuccess)) := by
  cases msg <;>
    simp [StratumConnectionHandler.visit, StratumConnectionHandler.accept,
      StratumConnectionHandler.new]

/-- Shared helper: on the success path (matching pending entry whose
height agrees with the announcement), `visit_set_new_prev_hash` stores
the new height, publishes exactly the promoted job, and leaves the table
restricted to heights strictly greater than the announced one. -/
lemma visit_prev_hash_found (s : HandlerState) (pm : SetNewPrevHash) (jm : NewMiningJob)
    (hfound : s.new_jobs pm.block_height = some jm)
    (hkey : jm.block_height = pm.block_height) :
    visit_set_new_prev_hash s pm = Except.ok
      (⟨fun k => if pm.block_height < k then s.new_jobs k else none, pm.block_height⟩,
       [Output.publishedJob ⟨jm.job_id, jm.channel_id, jm.block_height, jm.version,
         pm.prev_hash, jm.merkle_root, pm.min_ntime,
         (pm.min_ntime + pm.max_ntime_offset) % U32_MOD, pm.nbits⟩]) := by
  have htab : (fun h => if pm.block_height ≤ h then
        (if h = pm.block_height then none else s.new_jobs h) else none)
      = (fun k => if pm.block_height < k then s.new_jobs k else none) := by
    funext k
    by_cases h1 : k = pm.block_height
    · subst h1
      simp
    · by_cases h2 : pm.block_height ≤ k
      · rw [if_pos h2, if_neg h1, if_pos (lt_of_le_of_ne h2 (Ne.symm h1))]
      · rw [if_neg h2, if_neg (by omega)]
  simp [visit_set_new_prev_hash, hfound, StratumJob.new, hkey, htab]

/-- C6: when the matching entry exists, processing a new-block
announcement at height `h` leaves the pending-job table equal to the
prior table restricted to heights strictly greater than `h`: the entry
at `h` is removed by promotion, entries below `h` are purged, entries
above `h` are kept — for any prior table state, hence for any order in
which the pending announcements arrived. -/
theorem purge_after_promotion (s : HandlerState) (pm : SetNewPrevHash) (jm : NewMiningJob)
    (hfound : s.new_jobs pm.block_height = some jm)
    (hkey : jm.block_height = pm.block_height) :
    visit_set_new_prev_hash s pm = Except.ok
      (⟨fun k => if pm.block_height < k then s.new_jobs k else none, pm.block_height⟩,
       [Output.publishedJob ⟨jm.job_id, jm.channel_id, jm.block_height, jm.version,
         pm.prev_hash, jm.merkle_root, pm.min_ntime,
         (pm.min_ntime + pm.max_ntime_offset) % U32_MOD, pm.nbits⟩]) :=
  visit_prev_hash_found s pm jm hfound hkey

/-- Witness for C6: table holding jmW at height 100, announcement pmW
for height 100. -/
theorem purge_after_promotion_witness :
    visit_set_new_prev_hash (visit_new_mining_job HandlerState.initial jmW) pmW = Except.ok
      (⟨fun k => if pmW.block_height < k
           then (visit_new_mining_job HandlerState.initial jmW).new_jobs k else none,
        pmW.block_height⟩,
       [Output.publishedJob ⟨jmW.job_id, jmW.channel_id, jmW.block_height, jmW.version,
         pmW.prev_hash, jmW.merkle_root, pmW.min_ntime,
         (pmW.min_ntime + pmW.max_ntime_offset) % U32_MOD, pmW.nbits⟩]) :=
  purge_after_promotion (visit_new_mining_job HandlerState.initial jmW) pmW jmW rfl rfl

/-- C10: the shared cell is stored with the announcement's height before
the job is built, and the published job's own height equals that stored
value, so the published job is valid the moment it is published and is
invalid at every strictly greater stored height. -/
theorem published_job_valid (s : HandlerState) (pm : SetNewPrevHash) (jm : NewMiningJob)
    (h2 : Nat) (hfound : s.new_jobs pm.block_height = some jm)
    (hkey : jm.block_height = pm.block_height) (hgt : pm.block_height < h2) :
    visit_set_new_prev_hash s pm = Except.ok
      (⟨fun k => if pm.block_height < k then s.new_jobs k else none, pm.block_height⟩,
       [Output.publishedJob ⟨jm.job_id, jm.channel_id, jm.block_height, jm.version,
         pm.prev_hash, jm.merkle_root, pm.min_ntime,
         (pm.min_ntime + pm.max_ntime_offset) % U32_MOD, pm.nbits⟩]) ∧
    StratumJob.is_valid
      ⟨jm.job_id, jm.channel_id, jm.block_height, jm.version, pm.prev_hash,
       jm.merkle_root, pm.min_ntime, (pm.min_ntime + pm.max_ntime_offset) % U32_MOD,
       pm.nbits⟩ pm.block_height = true ∧
    StratumJob.is_valid
      ⟨jm.job_id, jm.channel_id, jm.block_height, jm.version, pm.prev_hash,
       jm.merkle_root, pm.min_ntime, (pm.min_ntime + pm.max_ntime_offset) % U32_MOD,
       pm.nbits⟩ h2 = false := by
  refine ⟨visit_prev_hash_found s pm jm hfound hkey, ?_, ?_⟩
  · simp [StratumJob.is_valid, hkey]
  · simp [StratumJob.is_valid, hkey]
    omega

/-- Witness for C10: the job promoted at height 100 is valid at the new
stored height 100 and invalid at 101. -/
theorem published_job_valid_witness :
    visit_set_new_prev_hash (visit_new_mining_job HandlerState.initial jmW) pmW = Except.ok
      (⟨fun k => if pmW.block_height < k
           then (visit_new_mining_job HandlerState.initial jmW).new_jobs k else none,
        pmW.block_height⟩,
       [Output.publishedJob ⟨jmW.job_id, jmW.channel_id, jmW.block_height, jmW.version,
         pmW.prev_hash, jmW.merkle_root, pmW.min_ntime,
         (pmW.min_ntime + pmW.max_ntime_offset) % U32_MOD, pmW.nbits⟩]) ∧
    StratumJob.is_valid
      ⟨jmW.job_id, jmW.channel_id, jmW.block_height, jmW.version, pmW.prev_hash,
       jmW.merkle_root, pmW.min_ntime, (pmW.min_ntime + pmW.max_ntime_offset) % U32_MOD,
       pmW.nbits⟩ pmW.block_height = true ∧
    StratumJob.is_valid
      ⟨jmW.job_id, jmW.channel_id, jmW.block_height, jmW.version, pmW.prev_hash,
       jmW.merkle_root, pmW.min_ntime, (pmW.min_ntime + pmW.max_ntime_offset) % U32_MOD,
       pmW.nbits⟩ 101 = false :=
  published_job_valid (visit_new_mining_job HandlerState.initial jmW) pmW jmW 101
    rfl rfl (by decide)

/-- C2: a job announcement for height `h` followed by a new-block
announcement for the same height publishes exactly one Job, whose block
height, job id, channel id and version come from the job announcement,
whose time is the new-block announcement's minimum time, and whose
maximum time is that minimum time plus the server-provided offset
(wrapping `u32` addition). -/
theorem job_then_prev_hash_publishes (s : HandlerState) (jm : NewMiningJob)
    (pm : SetNewPrevHash) (hh : jm.block_height = pm.block_height) :
    ∃ s2, runEvents s [Event.newMiningJob jm, Event.setNewPrevHash pm]
      = Except.ok (s2,
        [Output.publishedJob ⟨jm.job_id, jm.channel_id, jm.block_height, jm.version,
          pm.prev_hash, jm.merkle_root, pm.min_ntime,
          (pm.min_ntime + pm.max_ntime_offset) % U32_MOD, pm.nbits⟩]) := by
  have hfound : (visit_new_mining_job s jm).new_jobs pm.block_height = some jm := by
    simp [visit_new_mining_job, hh]
  refine ⟨⟨fun k => if pm.block_height < k
      then (visit_new_mining_job s jm).new_jobs k else none, pm.block_height⟩, ?_⟩
  simp only [runEvents, step,
    visit_prev_hash_found (visit_new_mining_job s jm) pm jm hfound hh,
    List.nil_append, List.append_nil]

/-- Witness for C2: jmW then pmW (both height 100) starting from the
fresh handler state. -/
theorem job_then_prev_hash_publishes_witness :
    ∃ s2, runEvents HandlerState.initial
        [Event.newMiningJob jmW, Event.setNewPrevHash pmW]
      = Except.ok (s2,
        [Output.publishedJob ⟨jmW.job_id, jmW.channel_id, jmW.block_height, jmW.version,
          pmW.prev_hash, jmW.merkle_root, pmW.min_ntime,
          (pmW.min_ntime + pmW.max_ntime_offset) % U32_MOD, pmW.nbits⟩]) :=
  job_then_prev_hash_publishes HandlerState.initial jmW pmW rfl

/-- Shared helper: running the submitter from any counter value below
2^32 appends one submission per solution, carrying the counter values
`seq_num, seq_num + 1, ...` reduced mod 2^32, in arrival order. -/
lemma runSolutions_seq (sols : List Solution) :
    ∀ s : SolutionHandlerState, s.seq_num < U32_MOD →
    (runSolutions s sols).sent.map SubmitShares.seq_num
      = s.sent.map SubmitShares.seq_num
        ++ (List.range sols.length).map (fun i => (s.seq_num + i) % U32_MOD) := by
  induction sols with
  | nil =>
    intro s hs
    simp [runSolutions]
  | cons a rest ih =>
    intro s hs
    have hlt : (s.seq_num + 1) % U32_MOD < U32_MOD :=
      Nat.mod_lt _ (by norm_num [U32_MOD])
    rw [runSolutions, ih (process_solution s a) hlt]
    have hfun : (fun i => ((s.seq_num + 1) % U32_MOD + i) % U32_MOD)
        = (fun i => (s.seq_num + (i + 1)) % U32_MOD) := by
      funext i
      rw [Nat.mod_add_mod]
      congr 1
      omega
    have hhead : s.seq_num % U32_MOD = s.seq_num := Nat.mod_eq_of_lt hs
    simp only [process_solution, List.map_append, List.map_cons, List.map_nil,
      List.length_cons, List.range_succ_eq_map, List.map_map, List.append_assoc,
      List.cons_append, List.nil_append, hfun, Function.comp_def, Nat.succ_eq_add_one,
      Nat.add_zero, hhead]

/-- C3: starting from the fresh submitter (counter 0), the i-th
submission in arrival order carries sequence number `i mod 2^32`: the
counter is assigned before increment, advances by exactly 1 per
solution wrapping at 2^32, and is never reset or reordered. -/
theorem seq_nums_in_order (sols : List Solution) :
    (runSolutions SolutionHandlerState.initial sols).sent.map SubmitShares.seq_num
      = (List.range sols.length).map (fun i => i % U32_MOD) := by
  have h := runSolutions_seq sols SolutionHandlerState.initial
    (by norm_num [SolutionHandlerState.initial, U32_MOD])
  simpa [SolutionHandlerState.initial] using h

end StratumV2
